import Mathlib

/-
Shallow embedding of the colored_logging Go package (buffer.go, log.go).
Bytes are modelled as `Nat` (byte values), Go strings as `List Nat` of their
bytes, Go `int` as `Int` where negative values can occur (the `width`
parameter of `AppendInt`) and as `Nat` where the code only ever sees
non-negative values.  Destinations (`FdWriter`, `*os.File`) are modelled as
the two-element type `Dest`; `Write` calls are recorded as events and the
environment decides (via `failing`) whether a write returns an error.
`time.Now()` is modelled as an external clock `Nat → DateTime` sampled at a
tick counter that advances once per `time.Now()` call, and the runtime call
stack (`runtime.Caller`) as a list of frames indexed by skip count.
-/

/-- Byte list of a string literal (ASCII code points). -/
def strBytes (s : String) : List Nat := s.data.map Char.toNat

/-- Buffer.Reset (buffer.go:7-9): sets the logical content to empty
(`*b = (*b)[:0]`); retained capacity is not observable here. -/
def Buffer.Reset (_b : List Nat) : List Nat := []

/-- Buffer.Append (buffer.go:12-14): `append(*b, data...)`. -/
def Buffer.Append (b : List Nat) (data : List Nat) : List Nat := b ++ data

/-- Buffer.AppendByte (buffer.go:17-19): `append(*b, data)`. -/
def Buffer.AppendByte (b : List Nat) (data : Nat) : List Nat := b ++ [data]

/-- Buffer.Bytes (buffer.go:37-39): the underlying slice data. -/
def Buffer.Bytes (b : List Nat) : List Nat := b

/-- Decimal digits of `n`, least significant first; `fuel ≥ n` makes the
result independent of `fuel` (decimalAux_congr).  Helper for the
specification-side decimal representation. -/
def decimalAux : Nat → Nat → List Nat
  | 0, _ => []
  | _ + 1, 0 => []
  | f + 1, n + 1 => (n + 1) % 10 :: decimalAux f ((n + 1) / 10)

/-- Specification-side decimal representation of `v`, most significant digit
first; `0` is represented as `[0]`. -/
def specDecimal (v : Nat) : List Nat :=
  if v = 0 then [0] else (decimalAux v v).reverse

/-- Specification-side zero-padded decimal representation: the digits of `v`
left-padded with zeros to at least `w` digits (`w ≤ 1` adds no padding). -/
def paddedDecimal (v : Nat) (w : Int) : List Nat :=
  List.replicate (w.toNat - (specDecimal v).length) 0 ++ specDecimal v

/-- Byte rendering of the zero-padded decimal representation. -/
def digitsBytes (v : Nat) (w : Int) : List Nat :=
  (paddedDecimal v w).map (fun d => 48 + d)

/-- Direct translation of the loop of Buffer.AppendInt (buffer.go:22-34).
The source renders into a fixed scratch array `var repr [8]byte`, writing at
index `reprCount` which starts at 7 and is decremented per iteration;
`slots = reprCount + 1` counts the scratch cells still usable, so `slots = 0`
means the next write would use a negative index: that out-of-range access is
modelled as `none`.  The result is the byte suffix `repr[reprCount:]` that
the source appends to the buffer.  Note on the source text: the division
line reads `reminder := val / 10` where `val` is an identifier not bound
anywhere in the package; it is read as the loop variable `remaining`, the
only binding under which the function is well-formed (the remaining lines of
the loop all use `remaining`). -/
def appendIntGo : Nat → Int → Nat → Option (List Nat)
  | remaining, width, slots + 1 =>
    if 10 ≤ remaining ∨ 1 < width then
      (appendIntGo (remaining / 10) (width - 1) slots).map
        (fun rest => rest ++ [48 + (remaining - remaining / 10 * 10)])
    else
      some [48 + remaining]
  | _, _, 0 => none

/-- Buffer.AppendInt (buffer.go:22-34), total model: by `appendIntGo_eq`,
whenever the zero-padded representation fits the 8-byte scratch array the
source appends exactly `digitsBytes v w`; inputs that overflow the scratch
array crash the source (see the safety theorem for C10) and are modelled by
the same formula. -/
def Buffer.AppendInt (b : List Nat) (v : Nat) (w : Int) : List Nat :=
  b ++ digitsBytes v w

/-- ANSI escape sequence `ESC [ <ps> m` (bytes 27, 91, parameter bytes, 109). -/
def ansi (ps : List Nat) : List Nat := 27 :: 91 :: (ps ++ [109])

/-- Modelled from the spec: the color reset sequence emitted after each
colored segment (the color definitions live in a repository file that is not
under src/; spec section 6 fixes the palette, the exact parameter bytes are
the conventional SGR codes). -/
def colorOff : List Nat := ansi [48]

/-- Modelled from the spec: red, used for FATAL and ERROR prefixes. -/
def colorRed : List Nat := ansi [48, 59, 51, 49]

/-- Modelled from the spec: green, used for the INFO prefix. -/
def colorGreen : List Nat := ansi [48, 59, 51, 50]

/-- Modelled from the spec: orange, used for the WARN prefix and the caller
location segment. -/
def colorOrange : List Nat := ansi [48, 59, 51, 51]

/-- Modelled from the spec: blue, used for the timestamp segment. -/
def colorBlue : List Nat := ansi [48, 59, 51, 52]

/-- Modelled from the spec: purple, used for the DEBUG prefix. -/
def colorPurple : List Nat := ansi [48, 59, 51, 53]

/-- Modelled from the spec: cyan, used for the TRACE prefix. -/
def colorCyan : List Nat := ansi [48, 59, 51, 54]

/-- Modelled from the spec: gray, used for call-stack frame lines. -/
def colorGray : List Nat := ansi [49, 59, 51, 48]

/-- Modelled from the spec: wrap data in red plus a reset sequence. -/
def Red (data : List Nat) : List Nat := colorRed ++ data ++ colorOff

/-- Modelled from the spec: wrap data in green plus a reset sequence. -/
def Green (data : List Nat) : List Nat := colorGreen ++ data ++ colorOff

/-- Modelled from the spec: wrap data in orange plus a reset sequence. -/
def Orange (data : List Nat) : List Nat := colorOrange ++ data ++ colorOff

/-- Modelled from the spec: wrap data in purple plus a reset sequence. -/
def Purple (data : List Nat) : List Nat := colorPurple ++ data ++ colorOff

/-- Modelled from the spec: wrap data in cyan plus a reset sequence. -/
def Cyan (data : List Nat) : List Nat := colorCyan ++ data ++ colorOff

/-- Modelled from the spec: ColorBuffer wraps a Buffer (log.go uses the
field access `l.buf.Buffer` and the methods Blue/Orange/Gray/Off that append
color escape sequences). -/
structure ColorBuffer where
  Buffer : List Nat

def ColorBuffer.Reset (b : ColorBuffer) : ColorBuffer := ⟨Buffer.Reset b.Buffer⟩

def ColorBuffer.Append (b : ColorBuffer) (data : List Nat) : ColorBuffer :=
  ⟨Buffer.Append b.Buffer data⟩

def ColorBuffer.AppendByte (b : ColorBuffer) (data : Nat) : ColorBuffer :=
  ⟨Buffer.AppendByte b.Buffer data⟩

def ColorBuffer.AppendInt (b : ColorBuffer) (v : Nat) (w : Int) : ColorBuffer :=
  ⟨Buffer.AppendInt b.Buffer v w⟩

/-- Modelled from the spec: append the blue color-on sequence. -/
def ColorBuffer.Blue (b : ColorBuffer) : ColorBuffer := ⟨b.Buffer ++ colorBlue⟩

/-- Modelled from the spec: append the orange color-on sequence. -/
def ColorBuffer.Orange (b : ColorBuffer) : ColorBuffer := ⟨b.Buffer ++ colorOrange⟩

/-- Modelled from the spec: append the gray color-on sequence. -/
def ColorBuffer.Gray (b : ColorBuffer) : ColorBuffer := ⟨b.Buffer ++ colorGray⟩

/-- Modelled from the spec: append the color reset sequence. -/
def ColorBuffer.Off (b : ColorBuffer) : ColorBuffer := ⟨b.Buffer ++ colorOff⟩

/-- Severity prefix descriptor (log.go:35-40). -/
structure Prefix where
  Plain : List Nat
  Color : List Nat
  File : Bool
  Callstack : Bool

def plainFatal : List Nat := strBytes "[FATAL] "
def plainError : List Nat := strBytes "[ERROR] "
def plainWarn : List Nat := strBytes "[WARN]  "
def plainInfo : List Nat := strBytes "[INFO]  "
def plainDebug : List Nat := strBytes "[DEBUG] "
def plainTrace : List Nat := strBytes "[TRACE] "

def FatalPrefix : Prefix :=
  { Plain := plainFatal, Color := Red plainFatal, File := true, Callstack := false }

def ErrorPrefix : Prefix :=
  { Plain := plainError, Color := Red plainError, File := true, Callstack := false }

def WarnPrefix : Prefix :=
  { Plain := plainWarn, Color := Orange plainWarn, File := false, Callstack := false }

def InfoPrefix : Prefix :=
  { Plain := plainInfo, Color := Green plainInfo, File := false, Callstack := false }

def DebugPrefix : Prefix :=
  { Plain := plainDebug, Color := Purple plainDebug, File := true, Callstack := false }

def TracePrefix : Prefix :=
  { Plain := plainTrace, Color := Cyan plainTrace, File := false, Callstack := true }

/-- The six prefix values declared in log.go:50-78. -/
def sixPrefixes : List Prefix :=
  [ FatalPrefix, ErrorPrefix, WarnPrefix, InfoPrefix, DebugPrefix, TracePrefix]

/-- One frame of the runtime call stack as reported by `runtime.Caller` plus
`runtime.FuncForPC(pc).Name()`: function name, source file path, line. -/
structure Frame where
  fn : String
  file : String
  line : Nat

/-- Helper for `basename`: keep the characters after the last slash. -/
def baseAux : List Char → List Char → List Char
  | [], cur => cur.reverse
  | c :: rest, cur => if c = '/' then baseAux rest [] else baseAux rest (c :: cur)

/-- filepath.Base restricted to the shapes that occur here: the path
component after the last slash (stdlib edge cases with trailing slashes or
empty paths are not exercised by any claim). -/
def basename (s : String) : String := String.mk (baseAux s.data [])

/-- getOccurrence (log.go:303-316): `runtime.Caller(depth + 2 + additional)`
is modelled as indexing the ambient stack; on failure the placeholder frame
is substituted and `ok = false` is reported. -/
def getOccurrence (depth : Nat) (stack : List Frame) (additional : Nat) :
    Frame × Bool :=
  match stack.get? (depth + 2 + additional) with
  | some fr => ({ fn := fr.fn, file := basename fr.file, line := fr.line }, true)
  | none => ({ fn := "<unknown function>", file := "<unknown file>", line := 0 }, false)

/-- Wall-clock instant as decomposed by `now.Date()` and `now.Clock()`. -/
structure DateTime where
  year : Nat
  month : Nat
  day : Nat
  hour : Nat
  min : Nat
  sec : Nat

/-- The two write destinations a logger can have. -/
inductive Dest where
  | primary
  | file
deriving DecidableEq

/-- Logger state (log.go:20-30); the mutex is not modelled (all modelled
executions are sequential), `out` and `logFile` are destination handles. -/
structure Logger where
  depth : Nat
  color : Bool
  out : Dest
  debug : Bool
  timestamp : Bool
  quiet : Bool
  logFile : Option Dest
  buf : ColorBuffer

/-- Result of one emission call: the updated logger, the advanced clock
tick, the sequence of write calls made (destination and bytes), and the
error returned (the destination whose `Write` failed, if any). -/
structure EmitResult where
  logger : Logger
  tick : Nat
  writes : List (Dest × List Nat)
  err : Option Dest

/-- New (log.go:82-88); terminal detection is an external capability passed
as a boolean. -/
def New (out : Dest) (isTerminal : Bool) : Logger :=
  { depth := 0, color := isTerminal, out := out, debug := false,
    timestamp := true, quiet := false, logFile := none, buf := ⟨[]⟩ }

def Logger.WithColor (l : Logger) : Logger := { l with color := true }

def Logger.Depth (l : Logger) (depth : Nat) : Logger := { l with depth := depth }

def Logger.IsColored (l : Logger) : Bool := l.color

def Logger.WithoutColor (l : Logger) : Logger := { l with color := false }

def Logger.WithDebug (l : Logger) : Logger := { l with debug := true }

def Logger.WithoutDebug (l : Logger) : Logger := { l with debug := false }

def Logger.IsDebug (l : Logger) : Bool := l.debug

def Logger.WithTimestamp (l : Logger) : Logger := { l with timestamp := true }

def Logger.WithoutTimestamp (l : Logger) : Logger := { l with timestamp := false }

/-- Quiet (log.go:174-179). -/
def Logger.Quiet (l : Logger) : Logger := { l with quiet := true }

/-- NoQuiet (log.go:181-186). -/
def Logger.NoQuiet (l : Logger) : Logger := { l with quiet := false }

def Logger.IsQuiet (l : Logger) : Bool := l.quiet

/-- fmt.Sprintln on pre-rendered operands: operands joined by single spaces
with a trailing newline. -/
def sprintln (args : List (List Nat)) : List Nat :=
  List.intercalate [32] args ++ [10]

/-- Write one call-stack frame line into the buffer: gray-on if colored,
then tab, function, colon, file, colon, line, newline, then color off
(log.go:281-295). -/
def writeStackFrame (c : Bool) (b : ColorBuffer) (fr : Frame) : ColorBuffer :=
  let ba := if c then b.Gray else b
  let bb := ((((ba.AppendByte 9).Append (strBytes fr.fn)).AppendByte 58).Append
      (strBytes fr.file)).AppendByte 58
  let bc := (bb.AppendInt fr.line 0).AppendByte 10
  if c then bc.Off else bc

/-- The call-stack loop of output (log.go:271-297): at most `fuel` frames
(`maxCallDepth = 50` at the call site), stopping at the first frame
`getOccurrence` cannot resolve. -/
def appendCallstack (c : Bool) (d : Nat) (s : List Frame) :
    ColorBuffer → Nat → Nat → ColorBuffer
  | b, _, 0 => b
  | b, i, fuel + 1 =>
    if (getOccurrence d s i).2 then
      appendCallstack c d s (writeStackFrame c b (getOccurrence d s i).1) (i + 1) fuel
    else b

/-- output (log.go:208-301): the single-destination emission pass.  The
quiet check precedes the `time.Now()` sample; the buffer is reset and the
record is assembled by sequential appends; finally one `Write` call is made
on `l.out` with the buffer contents and its error status is returned. -/
def Logger.output (l : Logger) (pfx : Prefix) (data : List Nat)
    (clock : Nat → DateTime) (tick : Nat) (stack : List Frame)
    (failing : Dest → Bool) : EmitResult :=
  if l.quiet then ⟨l, tick, [], none⟩
  else
    let now := clock tick
    let b0 := l.buf.Reset
    let b1 := if l.color then b0.Append pfx.Color else b0.Append pfx.Plain
    let b2 :=
      if l.timestamp then
        let ba := if l.color then b1.Blue else b1
        let bb := ((((((((((ba.AppendInt now.year 4).AppendByte 47).AppendInt
            now.month 2).AppendByte 47).AppendInt now.day 2).AppendByte
            32).AppendInt now.hour 2).AppendByte 58).AppendInt now.min
            2).AppendByte 58).AppendInt now.sec 2
        let bc := bb.AppendByte 32
        if l.color then bc.Off else bc
      else b1
    let b3 :=
      if pfx.File then
        let fr := (getOccurrence l.depth stack 0).1
        let ba := if l.color then b2.Orange else b2
        let bb := ((((ba.Append (strBytes fr.fn)).AppendByte 58).Append
            (strBytes fr.file)).AppendByte 58).AppendInt fr.line 0
        let bc := bb.AppendByte 32
        if l.color then bc.Off else bc
      else b2
    let b4 := b3.Append data
    let b5 := if data = [] ∨ data.getLast? ≠ some 10 then b4.AppendByte 10 else b4
    let b6 := if pfx.Callstack then appendCallstack l.color l.depth stack b5 0 50 else b5
    ⟨{ l with buf := b6 }, tick + 1, [(l.out, Buffer.Bytes b6.Buffer)],
      if failing l.out then some l.out else none⟩

/-- Output (log.go:194-206): when a log file is attached, a shallow copy of
the logger with color off and the file as destination performs a first pass;
if that pass returns an error it is propagated immediately (the primary pass
is skipped), otherwise the primary pass runs.  Each `output` pass resolves
caller frames with `runtime.Caller` against the runtime stack of that
invocation, and those stacks are not identical: the frame at skip
`depth + 2` is the Output frame itself, whose line differs between the
passes (the file pass runs from the call at log.go:201, the primary pass
from the one at log.go:205), while the frames above it coincide.  The model
therefore gives each pass its own stack parameter: `stackF` for the file
pass, `stackP` for the primary pass. -/
def Logger.Output (l : Logger) (pfx : Prefix) (data : List Nat)
    (clock : Nat → DateTime) (tick : Nat) (stackF stackP : List Frame)
    (failing : Dest → Bool) : EmitResult :=
  match l.logFile with
  | some fd =>
    let copy : Logger := { l with color := false, out := fd }
    let r1 := copy.output pfx data clock tick stackF failing
    match r1.err with
    | some e => { logger := l, tick := r1.tick, writes := r1.writes, err := some e }
    | none =>
      let r2 := l.output pfx data clock r1.tick stackP failing
      { logger := r2.logger, tick := r2.tick, writes := r1.writes ++ r2.writes,
        err := r2.err }
  | none => l.output pfx data clock tick stackP failing

/-- Error (log.go:332-334). -/
def Logger.Error (l : Logger) (args : List (List Nat)) (clock : Nat → DateTime)
    (tick : Nat) (stackF stackP : List Frame) (failing : Dest → Bool) : EmitResult :=
  l.Output ErrorPrefix (sprintln args) clock tick stackF stackP failing

/-- Warn (log.go:342-344). -/
def Logger.Warn (l : Logger) (args : List (List Nat)) (clock : Nat → DateTime)
    (tick : Nat) (stackF stackP : List Frame) (failing : Dest → Bool) : EmitResult :=
  l.Output WarnPrefix (sprintln args) clock tick stackF stackP failing

/-- Info (log.go:352-354). -/
def Logger.Info (l : Logger) (args : List (List Nat)) (clock : Nat → DateTime)
    (tick : Nat) (stackF stackP : List Frame) (failing : Dest → Bool) : EmitResult :=
  l.Output InfoPrefix (sprintln args) clock tick stackF stackP failing

/-- Debug (log.go:362-366): a no-op (no output, no clock sample, no caller
resolution, not even a quiet check) unless debug is enabled. -/
def Logger.Debug (l : Logger) (args : List (List Nat)) (clock : Nat → DateTime)
    (tick : Nat) (stackF stackP : List Frame) (failing : Dest → Bool) : EmitResult :=
  if l.IsDebug then l.Output DebugPrefix (sprintln args) clock tick stackF stackP failing
  else ⟨l, tick, [], none⟩

/-- Debugf (log.go:369-373); the format expansion is received pre-rendered. -/
def Logger.Debugf (l : Logger) (formatted : List Nat) (clock : Nat → DateTime)
    (tick : Nat) (stackF stackP : List Frame) (failing : Dest → Bool) : EmitResult :=
  if l.IsDebug then l.Output DebugPrefix formatted clock tick stackF stackP failing
  else ⟨l, tick, [], none⟩

/-- Trace (log.go:376-380). -/
def Logger.Trace (l : Logger) (args : List (List Nat)) (clock : Nat → DateTime)
    (tick : Nat) (stackF stackP : List Frame) (failing : Dest → Bool) : EmitResult :=
  if l.IsDebug then l.Output TracePrefix (sprintln args) clock tick stackF stackP failing
  else ⟨l, tick, [], none⟩

/-- Tracef (log.go:383-385): delegates to Trace with the formatted string as
the single operand. -/
def Logger.Tracef (l : Logger) (formatted : List Nat) (clock : Nat → DateTime)
    (tick : Nat) (stackF stackP : List Frame) (failing : Dest → Bool) : EmitResult :=
  l.Trace [formatted] clock tick stackF stackP failing

/-- WithLogFile (log.go:121-135): `openOk` is the outcome of `os.OpenFile`;
on failure the error is reported through `l.Error` (whose returned error the
source discards) and the logger is returned unchanged; on success the file
destination is attached (the `runtime.SetFinalizer` registration has no
observable effect on any modelled state and is not modelled). -/
def Logger.WithLogFile (l : Logger) (openOk : Bool) (path errMsg : List Nat)
    (clock : Nat → DateTime) (tick : Nat) (stackF stackP : List Frame)
    (failing : Dest → Bool) : EmitResult :=
  if openOk then ⟨{ l with logFile := some Dest.file }, tick, [], none⟩
  else
    let r := l.Error [ strBytes "could not open log file", path, errMsg]
      clock tick stackF stackP failing
    ⟨r.logger, r.tick, r.writes, none⟩

/-- Rendering of the timestamp segment `YYYY/MM/DD HH:MM:SS ` (log.go:228-241). -/
def tsBytes (t : DateTime) : List Nat :=
  digitsBytes t.year 4 ++ ([47] ++ (digitsBytes t.month 2 ++ ([47] ++
    (digitsBytes t.day 2 ++ ([32] ++ (digitsBytes t.hour 2 ++ ([58] ++
    (digitsBytes t.min 2 ++ ([58] ++ (digitsBytes t.sec 2 ++ [32]))))))))))

/-- Rendering of the caller location segment `function:file:line ` (log.go:254-259). -/
def locBytes (fr : Frame) : List Nat :=
  strBytes fr.fn ++ ([58] ++ (strBytes fr.file ++ ([58] ++
    (digitsBytes fr.line 0 ++ [32]))))

/-- Prefix segment of a record: the color or plain prefix representation. -/
def prefixSeg (c : Bool) (pfx : Prefix) : List Nat :=
  if c then pfx.Color else pfx.Plain

/-- Timestamp segment of a record, with blue/reset wrapping when colored. -/
def tsSeg (c ts : Bool) (now : DateTime) : List Nat :=
  if ts then (if c then colorBlue else []) ++ (tsBytes now ++ (if c then colorOff else []))
  else []

/-- Caller location segment of a record, with orange/reset wrapping when
colored. -/
def locSeg (c : Bool) (pfx : Prefix) (d : Nat) (stack : List Frame) : List Nat :=
  if pfx.File then
    (if c then colorOrange else []) ++
      (locBytes (getOccurrence d stack 0).1 ++ (if c then colorOff else []))
  else []

/-- Newline segment: the byte appended by log.go:267-269. -/
def nlSeg (data : List Nat) : List Nat :=
  if data = [] ∨ data.getLast? ≠ some 10 then [10] else []

/-- Specification-side newline normalization: append exactly one newline iff
the message does not already end in one. -/
def normalizeNewline (data : List Nat) : List Nat :=
  if data.getLast? = some 10 then data else data ++ [10]

/-- One rendered call-stack frame line. -/
def stackLine (c : Bool) (fr : Frame) : List Nat :=
  (if c then colorGray else []) ++ ([9] ++ (strBytes fr.fn ++ ([58] ++
    (strBytes fr.file ++ ([58] ++ (digitsBytes fr.line 0 ++ ([10] ++
    (if c then colorOff else []))))))))

/-- The list of call-stack frame lines produced by the loop of
log.go:271-297, starting at additional depth `i` with `fuel` iterations
left. -/
def stackLines (c : Bool) (d : Nat) (s : List Frame) : Nat → Nat → List (List Nat)
  | _, 0 => []
  | i, fuel + 1 =>
    if (getOccurrence d s i).2 then
      stackLine c (getOccurrence d s i).1 :: stackLines c d s (i + 1) fuel
    else []

/-- Call-stack segment of a record. -/
def stackSeg (c : Bool) (pfx : Prefix) (d : Nat) (stack : List Frame) : List Nat :=
  if pfx.Callstack then (stackLines c d stack 0 50).flatten else []

/-- The full byte record assembled by one `output` pass (proved equal to the
buffer contents in `output_eq`). -/
def recordBytes (c ts : Bool) (d : Nat) (pfx : Prefix) (data : List Nat)
    (now : DateTime) (stack : List Frame) : List Nat :=
  prefixSeg c pfx ++ (tsSeg c ts now ++ (locSeg c pfx d stack ++
    (data ++ (nlSeg data ++ stackSeg c pfx d stack))))

/-- State machine that deletes ANSI escape sequences: in skip mode (first
argument true) bytes are dropped until the terminator `m` (109); otherwise
bytes are copied until an ESC (27) enters skip mode. -/
def stripGo : Bool → List Nat → List Nat
  | _, [] => []
  | false, b :: bs => if b = 27 then stripGo true bs else b :: stripGo false bs
  | true, b :: bs => if b = 109 then stripGo false bs else stripGo true bs

/-- Delete all ANSI escape sequences from a byte list. -/
def stripAnsi (xs : List Nat) : List Nat := stripGo false xs

/-- A resolved frame whose rendered strings contain no ESC byte. -/
def frameClean (fr : Frame) : Prop :=
  27 ∉ strBytes fr.fn ∧ 27 ∉ strBytes fr.file

/-- A call stack whose frames render without ESC bytes (function names and
base file names). -/
def stackClean (stack : List Frame) : Prop :=
  ∀ fr ∈ stack, 27 ∉ strBytes fr.fn ∧ 27 ∉ strBytes (basename fr.file)

instance (stack : List Frame) : Decidable (stackClean stack) := by
  unfold stackClean
  infer_instance

/-- One buffer append operation, for the reset/append algebra. -/
inductive BufOp where
  | append (data : List Nat)
  | appendByte (b : Nat)
  | appendInt (v : Nat) (w : Int)

/-- Apply one buffer operation. -/
def applyOp (b : List Nat) : BufOp → List Nat
  | .append data => Buffer.Append b data
  | .appendByte c => Buffer.AppendByte b c
  | .appendInt v w => Buffer.AppendInt b v w

/-- Apply a sequence of buffer operations in order. -/
def applyOps (b : List Nat) (ops : List BufOp) : List Nat :=
  ops.foldl applyOp b

/-- The bytes one operation contributes. -/
def opBytes : BufOp → List Nat
  | .append data => data
  | .appendByte c => [c]
  | .appendInt v w => digitsBytes v w

/-! Lemmas about the decimal representation. -/

theorem decimalAux_zero (f : Nat) : decimalAux f 0 = [] := by
  cases f <;> rfl

theorem decimalAux_congr : ∀ f g n : Nat, n ≤ f → n ≤ g →
    decimalAux f n = decimalAux g n := by
  intro f
  induction f with
  | zero =>
    intro g n hf _
    have hn : n = 0 := by omega
    subst hn
    rw [decimalAux_zero, decimalAux_zero]
  | succ f ih =>
    intro g n hf hg
    cases n with
    | zero => rw [decimalAux_zero, decimalAux_zero]
    | succ m =>
      cases g with
      | zero => omega
      | succ g₂ =>
        show (m + 1) % 10 :: decimalAux f ((m + 1) / 10) =
          (m + 1) % 10 :: decimalAux g₂ ((m + 1) / 10)
        congr 1
        exact ih g₂ ((m + 1) / 10) (by omega) (by omega)

theorem specDecimal_lt10 {v : Nat} (h1 : 0 < v) (h2 : v < 10) :
    specDecimal v = [v] := by
  cases v with
  | zero => omega
  | succ m =>
    unfold specDecimal
    rw [if_neg (by omega)]
    show ((m + 1) % 10 :: decimalAux m ((m + 1) / 10)).reverse = [m + 1]
    rw [Nat.div_eq_of_lt h2, decimalAux_zero, Nat.mod_eq_of_lt h2]
    rfl

theorem specDecimal_ge10 {v : Nat} (h : 10 ≤ v) :
    specDecimal v = specDecimal (v / 10) ++ [v % 10] := by
  cases v with
  | zero => omega
  | succ m =>
    have hv10 : 0 < (m + 1) / 10 := by omega
    unfold specDecimal
    rw [if_neg (by omega), if_neg (by omega)]
    show ((m + 1) % 10 :: decimalAux m ((m + 1) / 10)).reverse =
      (decimalAux ((m + 1) / 10) ((m + 1) / 10)).reverse ++ [(m + 1) % 10]
    rw [decimalAux_congr m ((m + 1) / 10) ((m + 1) / 10) (by omega) le_rfl]
    simp

theorem specDecimal_length_pos (v : Nat) : 0 < (specDecimal v).length := by
  by_cases h0 : v = 0
  · simp [specDecimal, h0]
  · cases v with
    | zero => exact absurd rfl h0
    | succ m => simp [specDecimal, decimalAux]

theorem decimalAux_lt : ∀ f n d : Nat, d ∈ decimalAux f n → d < 10 := by
  intro f
  induction f with
  | zero => intro n d h; simp [decimalAux] at h
  | succ f ih =>
    intro n d h
    cases n with
    | zero => simp [decimalAux] at h
    | succ m =>
      rw [show decimalAux (f + 1) (m + 1) =
        (m + 1) % 10 :: decimalAux f ((m + 1) / 10) from rfl] at h
      rcases List.mem_cons.mp h with h | h
      · subst h; omega
      · exact ih _ _ h

theorem specDecimal_digit_lt (v d : Nat) (h : d ∈ specDecimal v) : d < 10 := by
  by_cases h0 : v = 0
  · subst h0; simp [specDecimal] at h; omega
  · unfold specDecimal at h
    rw [if_neg h0] at h
    exact decimalAux_lt v v d (List.mem_reverse.mp h)

theorem decimalAux_foldl : ∀ f n a : Nat, n ≤ f →
    ((decimalAux f n).reverse).foldl (fun acc d => 10 * acc + d) a =
      a * 10 ^ (decimalAux f n).length + n := by
  intro f
  induction f with
  | zero =>
    intro n a h
    have hn : n = 0 := by omega
    subst hn
    simp [decimalAux]
  | succ f ih =>
    intro n a h
    cases n with
    | zero => simp [decimalAux_zero]
    | succ m =>
      rw [show decimalAux (f + 1) (m + 1) =
        (m + 1) % 10 :: decimalAux f ((m + 1) / 10) from rfl]
      rw [List.reverse_cons, List.foldl_append, ih ((m + 1) / 10) a (by omega)]
      simp only [List.foldl_cons, List.foldl_nil, List.length_cons]
      have hdm : 10 * ((m + 1) / 10) + (m + 1) % 10 = m + 1 := by omega
      have hr : 10 * (a * 10 ^ (decimalAux f ((m + 1) / 10)).length + (m + 1) / 10) +
          (m + 1) % 10 =
          a * 10 ^ ((decimalAux f ((m + 1) / 10)).length + 1) +
            (10 * ((m + 1) / 10) + (m + 1) % 10) := by ring
      rw [hr, hdm]

theorem specDecimal_foldl (v : Nat) :
    (specDecimal v).foldl (fun acc d => 10 * acc + d) 0 = v := by
  by_cases h0 : v = 0
  · simp [specDecimal, h0]
  · unfold specDecimal
    rw [if_neg h0]
    simpa using decimalAux_foldl v v 0 le_rfl

theorem specDecimal_head_ne_zero : ∀ v : Nat, 0 < v →
    (specDecimal v).head? ≠ some 0 := by
  intro v
  induction v using Nat.strong_induction_on with
  | _ v ih =>
    intro hv
    by_cases h10 : v < 10
    · rw [specDecimal_lt10 hv h10]
      simp
      omega
    · rw [specDecimal_ge10 (by omega)]
      have hne : specDecimal (v / 10) ≠ [] := by
        have := specDecimal_length_pos (v / 10)
        intro hcon
        rw [hcon] at this
        simp at this
      obtain ⟨a, t, hat⟩ := List.exists_cons_of_ne_nil hne
      have hhd := ih (v / 10) (by omega) (by omega)
      rw [hat] at hhd ⊢
      simpa using hhd

/-! Lemmas about the zero-padded representation and the source loop. -/

theorem paddedDecimal_length_pos (v : Nat) (w : Int) :
    0 < (paddedDecimal v w).length := by
  unfold paddedDecimal
  have := specDecimal_length_pos v
  simp
  omega

theorem paddedDecimal_length (v : Nat) (w : Int) :
    (paddedDecimal v w).length = max w.toNat (specDecimal v).length := by
  unfold paddedDecimal
  have := specDecimal_length_pos v
  simp
  omega

theorem paddedDecimal_base {v : Nat} {w : Int} (h1 : v < 10) (h2 : w ≤ 1) :
    paddedDecimal v w = [v] := by
  unfold paddedDecimal
  by_cases h0 : v = 0
  · subst h0
    rw [show specDecimal 0 = [0] from rfl]
    have hc : w.toNat - 1 = 0 := by omega
    simp [hc]
  · rw [specDecimal_lt10 (by omega) h1]
    have hc : w.toNat - 1 = 0 := by omega
    simp [hc]

theorem paddedDecimal_step {v : Nat} {w : Int} (h : 10 ≤ v ∨ 1 < w) :
    paddedDecimal v w = paddedDecimal (v / 10) (w - 1) ++ [v % 10] := by
  rcases Nat.lt_or_ge v 10 with hv | hv
  · have hw : 1 < w := by
      rcases h with h | h
      · omega
      · exact h
    rcases Nat.eq_zero_or_pos v with rfl | hv0
    · unfold paddedDecimal
      rw [Nat.zero_div, Nat.zero_mod]
      rw [show specDecimal 0 = [0] from rfl]
      have hcount : w.toNat - [0].length = ((w - 1).toNat - [0].length) + 1 := by
        simp; omega
      rw [hcount, List.replicate_succ']
    · unfold paddedDecimal
      rw [specDecimal_lt10 hv0 hv, Nat.div_eq_of_lt hv, Nat.mod_eq_of_lt hv]
      rw [show specDecimal 0 = [0] from rfl]
      have hcount : w.toNat - [v].length = ((w - 1).toNat - [0].length) + 1 := by
        simp; omega
      rw [hcount, List.replicate_succ']
  · unfold paddedDecimal
    rw [specDecimal_ge10 hv]
    have hL := specDecimal_length_pos (v / 10)
    have hlen : (specDecimal (v / 10) ++ [v % 10]).length =
        (specDecimal (v / 10)).length + 1 := by simp
    rw [hlen]
    have hcount : w.toNat - ((specDecimal (v / 10)).length + 1) =
        (w - 1).toNat - (specDecimal (v / 10)).length := by omega
    rw [hcount, ← List.append_assoc]

theorem appendIntGo_eq : ∀ (slots : Nat) (v : Nat) (w : Int),
    appendIntGo v w slots =
      if (paddedDecimal v w).length ≤ slots then some (digitsBytes v w)
      else none := by
  intro slots
  induction slots with
  | zero =>
    intro v w
    rw [if_neg (by have := paddedDecimal_length_pos v w; omega)]
    rfl
  | succ s ih =>
    intro v w
    show (if 10 ≤ v ∨ 1 < w then
        (appendIntGo (v / 10) (w - 1) s).map
          (fun rest => rest ++ [48 + (v - v / 10 * 10)])
      else some [48 + v]) = _
    by_cases h : 10 ≤ v ∨ 1 < w
    · rw [if_pos h, ih]
      have hstep := paddedDecimal_step h
      have hlen : (paddedDecimal v w).length =
          (paddedDecimal (v / 10) (w - 1)).length + 1 := by rw [hstep]; simp
      by_cases hle : (paddedDecimal (v / 10) (w - 1)).length ≤ s
      · rw [if_pos hle, if_pos (by omega)]
        have hmod : v - v / 10 * 10 = v % 10 := by omega
        unfold digitsBytes
        rw [hstep, List.map_append, hmod]
        simp
      · rw [if_neg hle, if_neg (by omega)]
        rfl
    · rw [if_neg h]
      push_neg at h
      obtain ⟨h1, h2⟩ := h
      rw [if_pos]
      · unfold digitsBytes
        rw [paddedDecimal_base (by omega) (by omega)]
        simp
      · rw [paddedDecimal_base (by omega) (by omega)]
        simp

/-- C1: for every non-negative value `v` and width `w` whose zero-padded
decimal representation fits the 8-byte scratch array, the AppendInt loop
(buffer.go:22-34, modelled by `appendIntGo` started at the full 8 scratch
cells) appends exactly the decimal digit string of `v` left-padded with
zeros to at least `w` characters: the digit list reconstructs `v`
positionally, all entries are decimal digits, the unpadded part carries no
leading zero for `v > 0`, the value `0` is rendered as the single digit
zero, the rendered length is exactly `max w` (natural) digit count, and the
rendered string is never empty. -/
theorem c1_appendInt_renders_padded_decimal (v : Nat) (w : Int)
    (h : (paddedDecimal v w).length ≤ 8) :
    appendIntGo v w 8 = some (digitsBytes v w)
    ∧ (specDecimal v).foldl (fun acc d => 10 * acc + d) 0 = v
    ∧ (∀ d ∈ specDecimal v, d < 10)
    ∧ (0 < v → (specDecimal v).head? ≠ some 0)
    ∧ specDecimal 0 = [0]
    ∧ (digitsBytes v w).length = max w.toNat (specDecimal v).length
    ∧ digitsBytes v w ≠ [] := by
  refine ⟨?_, specDecimal_foldl v, fun d hd => specDecimal_digit_lt v d hd,
    specDecimal_head_ne_zero v, rfl, ?_, ?_⟩
  · rw [appendIntGo_eq 8 v w, if_pos h]
  · simp [digitsBytes, paddedDecimal_length]
  · intro hnil
    have h3 := paddedDecimal_length_pos v w
    have h4 : paddedDecimal v w = [] := by simpa [digitsBytes] using hnil
    rw [h4] at h3
    simp at h3

/-- Witness for C1 at `v = 1234`, `w = 6`. -/
theorem c1_witness :
    (paddedDecimal 1234 6).length ≤ 8
    ∧ (appendIntGo 1234 6 8 = some (digitsBytes 1234 6)
      ∧ (specDecimal 1234).foldl (fun acc d => 10 * acc + d) 0 = 1234
      ∧ (∀ d ∈ specDecimal 1234, d < 10)
      ∧ (0 < 1234 → (specDecimal 1234).head? ≠ some 0)
      ∧ specDecimal 0 = [0]
      ∧ (digitsBytes 1234 6).length = max (Int.toNat 6) (specDecimal 1234).length
      ∧ digitsBytes 1234 6 ≠ []) :=
  ⟨by decide, c1_appendInt_renders_padded_decimal 1234 6 (by decide)⟩

/-- C10: the AppendInt scratch array is indexed safely: whenever the
zero-padded representation fits the 8 scratch bytes, the loop started at the
full scratch (index 7, i.e. 8 usable cells) never reaches a negative scratch
index — `appendIntGo` (in which an out-of-range write is modelled as `none`)
returns a value.  The bound is a precondition: inputs needing more digits
are outside it. -/
theorem c10_scratch_in_bounds (v : Nat) (w : Int)
    (h : (paddedDecimal v w).length ≤ 8) :
    (appendIntGo v w 8).isSome = true := by
  rw [appendIntGo_eq 8 v w, if_pos h]
  rfl

/-- Witness for C10 at the widest fitting input shape: 8 digits. -/
theorem c10_witness :
    (paddedDecimal 12345678 1).length ≤ 8
    ∧ (appendIntGo 12345678 1 8).isSome = true :=
  ⟨by decide, c10_scratch_in_bounds 12345678 1 (by decide)⟩

/-! Buffer reset/append algebra. -/

theorem applyOps_eq : ∀ (ops : List BufOp) (b : List Nat),
    applyOps b ops = b ++ (ops.map opBytes).flatten := by
  intro ops
  induction ops with
  | nil => intro b; simp [applyOps]
  | cons op ops ih =>
    intro b
    show applyOps (applyOp b op) ops = _
    rw [ih]
    cases op <;>
      simp [applyOp, opBytes, Buffer.Append, Buffer.AppendByte, Buffer.AppendInt]

/-- C5: after `Reset`, any sequence of append operations yields exactly the
concatenation of the appended bytes, in order, with no residual bytes from
before the reset (the result agrees with the same operations applied to an
empty buffer), and immediately after `Reset` the logical length is 0. -/
theorem c5_reset_append_algebra (b : List Nat) (ops : List BufOp) :
    Buffer.Bytes (applyOps (Buffer.Reset b) ops) = (ops.map opBytes).flatten
    ∧ applyOps (Buffer.Reset b) ops = applyOps (Buffer.Reset []) ops
    ∧ (Buffer.Bytes (Buffer.Reset b)).length = 0 := by
  refine ⟨?_, rfl, rfl⟩
  rw [show Buffer.Bytes (applyOps (Buffer.Reset b) ops) =
    applyOps (Buffer.Reset b) ops from rfl]
  rw [applyOps_eq]
  rfl

/-! Characterisation of one output pass as a byte record. -/

theorem ColorBuffer.ext {a b : ColorBuffer} (h : a.Buffer = b.Buffer) : a = b := by
  cases a
  cases b
  simpa using h

theorem writeStackFrame_buffer (c : Bool) (b : ColorBuffer) (fr : Frame) :
    (writeStackFrame c b fr).Buffer = b.Buffer ++ stackLine c fr := by
  cases c <;>
    simp [writeStackFrame, stackLine, ColorBuffer.Gray, ColorBuffer.Off,
      ColorBuffer.Append, ColorBuffer.AppendByte, ColorBuffer.AppendInt,
      Buffer.Append, Buffer.AppendByte, Buffer.AppendInt]

theorem appendCallstack_buffer (c : Bool) (d : Nat) (s : List Frame) :
    ∀ (fuel i : Nat) (b : ColorBuffer),
      (appendCallstack c d s b i fuel).Buffer =
        b.Buffer ++ (stackLines c d s i fuel).flatten := by
  intro fuel
  induction fuel with
  | zero => intro i b; simp [appendCallstack, stackLines]
  | succ fuel ih =>
    intro i b
    cases hok : (getOccurrence d s i).2
    · simp [appendCallstack, stackLines, hok]
    · simp [appendCallstack, stackLines, hok, ih, writeStackFrame_buffer,
        List.append_assoc]

theorem appendCallstack_mk (c : Bool) (d : Nat) (s : List Frame) (xs : List Nat)
    (i fuel : Nat) :
    appendCallstack c d s ⟨xs⟩ i fuel = ⟨xs ++ (stackLines c d s i fuel).flatten⟩ :=
  ColorBuffer.ext (by rw [appendCallstack_buffer])

theorem output_eq (l : Logger) (pfx : Prefix) (data : List Nat)
    (clock : Nat → DateTime) (tick : Nat) (stack : List Frame)
    (failing : Dest → Bool) (h : l.quiet = false) :
    l.output pfx data clock tick stack failing =
      ⟨{ l with buf :=
          ⟨recordBytes l.color l.timestamp l.depth pfx data (clock tick) stack⟩ },
        tick + 1,
        [(l.out, recordBytes l.color l.timestamp l.depth pfx data (clock tick) stack)],
        if failing l.out then some l.out else none⟩ := by
  unfold Logger.output
  cases hc : l.color <;> cases ht : l.timestamp <;> cases hf : pfx.File <;>
    cases hcs : pfx.Callstack <;>
    simp only [h, hc, ht, hf, hcs, Bool.false_eq_true, if_false, if_true,
      ite_false, ite_true, ColorBuffer.Reset, ColorBuffer.Append,
      ColorBuffer.AppendByte, ColorBuffer.AppendInt, ColorBuffer.Blue,
      ColorBuffer.Orange, ColorBuffer.Gray, ColorBuffer.Off, Buffer.Reset,
      Buffer.Append, Buffer.AppendByte, Buffer.AppendInt, Buffer.Bytes,
      recordBytes, prefixSeg, tsSeg, locSeg, nlSeg, stackSeg, tsBytes, locBytes,
      appendCallstack_mk, List.nil_append, List.append_assoc] <;>
    split_ifs <;>
    simp [appendCallstack_mk, appendCallstack_buffer, List.append_assoc]

/-! ANSI stripping machinery. -/

theorem stripGo_nil (m : Bool) : stripGo m [] = [] := by
  cases m <;> rfl

theorem stripGo_false_cons (b : Nat) (bs : List Nat) :
    stripGo false (b :: bs) =
      if b = 27 then stripGo true bs else b :: stripGo false bs := rfl

theorem stripGo_true_cons (b : Nat) (bs : List Nat) :
    stripGo true (b :: bs) =
      if b = 109 then stripGo false bs else stripGo true bs := rfl

theorem stripGo_false_append {xs : List Nat} (h : 27 ∉ xs) (rest : List Nat) :
    stripGo false (xs ++ rest) = xs ++ stripGo false rest := by
  induction xs with
  | nil => simp
  | cons a as ih =>
    have ha : ¬ a = 27 := by
      intro hh
      exact h (by simp [hh])
    have has : 27 ∉ as := fun hh => h (by simp [hh])
    simp only [List.cons_append, stripGo_false_cons, if_neg ha, ih has]

theorem stripGo_true_append {xs : List Nat} (h : 109 ∉ xs) (rest : List Nat) :
    stripGo true (xs ++ rest) = stripGo true rest := by
  induction xs with
  | nil => simp
  | cons a as ih =>
    have ha : ¬ a = 109 := by
      intro hh
      exact h (by simp [hh])
    have has : 109 ∉ as := fun hh => h (by simp [hh])
    simp only [List.cons_append, stripGo_true_cons, if_neg ha, ih has]

theorem strip_ansi_seq {ps : List Nat} (h : 109 ∉ ps) (rest : List Nat) :
    stripGo false (ansi ps ++ rest) = stripGo false rest := by
  show stripGo false ((27 :: 91 :: (ps ++ [109])) ++ rest) = _
  simp only [List.cons_append]
  rw [stripGo_false_cons, if_pos rfl, stripGo_true_cons, if_neg (by omega),
    List.append_assoc, stripGo_true_append h]
  simp [stripGo_true_cons]

theorem strip_wrap {ps body : List Nat} (hp : 109 ∉ ps) (hb : 27 ∉ body)
    (rest : List Nat) :
    stripGo false (ansi ps ++ (body ++ (colorOff ++ rest))) =
      body ++ stripGo false rest := by
  rw [strip_ansi_seq hp, stripGo_false_append hb]
  rw [show colorOff = ansi [48] from rfl, strip_ansi_seq (by decide)]

theorem strip_noEsc {xs : List Nat} (h : 27 ∉ xs) : stripAnsi xs = xs := by
  unfold stripAnsi
  have h2 := stripGo_false_append h []
  simpa [stripGo_nil] using h2

/-! Absence of the ESC byte in the plainly rendered segments. -/

theorem noEsc_append {xs ys : List Nat} (hx : 27 ∉ xs) (hy : 27 ∉ ys) :
    27 ∉ xs ++ ys := by
  intro h
  rcases List.mem_append.mp h with h | h
  · exact hx h
  · exact hy h

theorem noEsc_digitsBytes (v : Nat) (w : Int) : 27 ∉ digitsBytes v w := by
  unfold digitsBytes
  intro h
  obtain ⟨d, _, hdd⟩ := List.mem_map.mp h
  omega

theorem noEsc_tsBytes (t : DateTime) : 27 ∉ tsBytes t := by
  unfold tsBytes
  exact noEsc_append (noEsc_digitsBytes _ _) (noEsc_append (by decide)
    (noEsc_append (noEsc_digitsBytes _ _) (noEsc_append (by decide)
    (noEsc_append (noEsc_digitsBytes _ _) (noEsc_append (by decide)
    (noEsc_append (noEsc_digitsBytes _ _) (noEsc_append (by decide)
    (noEsc_append (noEsc_digitsBytes _ _) (noEsc_append (by decide)
    (noEsc_append (noEsc_digitsBytes _ _) (by decide)))))))))))

theorem noEsc_locBytes {fr : Frame} (h : frameClean fr) : 27 ∉ locBytes fr := by
  unfold locBytes
  exact noEsc_append h.1 (noEsc_append (by decide) (noEsc_append h.2
    (noEsc_append (by decide) (noEsc_append (noEsc_digitsBytes _ _) (by decide)))))

theorem noEsc_nlSeg (data : List Nat) : 27 ∉ nlSeg data := by
  unfold nlSeg
  split
  · decide
  · decide

theorem getOccurrence_clean {stack : List Frame} (h : stackClean stack)
    (d i : Nat) : frameClean (getOccurrence d stack i).1 := by
  unfold getOccurrence frameClean
  cases hg : stack.get? (d + 2 + i) with
  | none =>
    simp only [hg]
    exact ⟨by decide, by decide⟩
  | some fr =>
    simp only [hg]
    exact h fr (List.get?_mem hg)

theorem stackLine_false_noEsc {fr : Frame} (h : frameClean fr) :
    27 ∉ stackLine false fr := by
  unfold stackLine
  simp only [Bool.false_eq_true, if_false, List.nil_append]
  exact noEsc_append (by decide) (noEsc_append h.1 (noEsc_append (by decide)
    (noEsc_append h.2 (noEsc_append (by decide)
    (noEsc_append (noEsc_digitsBytes _ _) (by decide))))))

theorem noEsc_stackLines_false {d : Nat} {s : List Frame} (h : stackClean s) :
    ∀ fuel i : Nat, 27 ∉ (stackLines false d s i fuel).flatten := by
  intro fuel
  induction fuel with
  | zero => intro i; simp [stackLines]
  | succ fuel ih =>
    intro i
    cases hok : (getOccurrence d s i).2
    · simp [stackLines, hok]
    · rw [show stackLines false d s i (fuel + 1) =
        stackLine false (getOccurrence d s i).1 :: stackLines false d s (i + 1) fuel
        from by simp [stackLines, hok]]
      rw [List.flatten_cons]
      exact noEsc_append (stackLine_false_noEsc (getOccurrence_clean h d i)) (ih (i + 1))

theorem sixPrefixes_plain_noEsc {pfx : Prefix} (h : pfx ∈ sixPrefixes) :
    27 ∉ pfx.Plain := by
  fin_cases h <;> decide

theorem strip_prefixSeg {pfx : Prefix} (h : pfx ∈ sixPrefixes) (c : Bool)
    (rest : List Nat) :
    stripGo false (prefixSeg c pfx ++ rest) = pfx.Plain ++ stripGo false rest := by
  cases c
  · rw [show prefixSeg false pfx = pfx.Plain from rfl]
    exact stripGo_false_append (sixPrefixes_plain_noEsc h) rest
  · rw [show prefixSeg true pfx = pfx.Color from rfl]
    fin_cases h
    · rw [show FatalPrefix.Color ++ rest =
        ansi [48, 59, 51, 49] ++ (plainFatal ++ (colorOff ++ rest)) from by
          simp [FatalPrefix, Red, colorRed, List.append_assoc]]
      rw [strip_wrap (by decide) (by decide) rest]
      rfl
    · rw [show ErrorPrefix.Color ++ rest =
        ansi [48, 59, 51, 49] ++ (plainError ++ (colorOff ++ rest)) from by
          simp [ErrorPrefix, Red, colorRed, List.append_assoc]]
      rw [strip_wrap (by decide) (by decide) rest]
      rfl
    · rw [show WarnPrefix.Color ++ rest =
        ansi [48, 59, 51, 51] ++ (plainWarn ++ (colorOff ++ rest)) from by
          simp [WarnPrefix, Orange, colorOrange, List.append_assoc]]
      rw [strip_wrap (by decide) (by decide) rest]
      rfl
    · rw [show InfoPrefix.Color ++ rest =
        ansi [48, 59, 51, 50] ++ (plainInfo ++ (colorOff ++ rest)) from by
          simp [InfoPrefix, Green, colorGreen, List.append_assoc]]
      rw [strip_wrap (by decide) (by decide) rest]
      rfl
    · rw [show DebugPrefix.Color ++ rest =
        ansi [48, 59, 51, 53] ++ (plainDebug ++ (colorOff ++ rest)) from by
          simp [DebugPrefix, Purple, colorPurple, List.append_assoc]]
      rw [strip_wrap (by decide) (by decide) rest]
      rfl
    · rw [show TracePrefix.Color ++ rest =
        ansi [48, 59, 51, 54] ++ (plainTrace ++ (colorOff ++ rest)) from by
          simp [TracePrefix, Cyan, colorCyan, List.append_assoc]]
      rw [strip_wrap (by decide) (by decide) rest]
      rfl

theorem strip_tsSeg (c ts : Bool) (now : DateTime) (rest : List Nat) :
    stripGo false (tsSeg c ts now ++ rest) = tsSeg false ts now ++ stripGo false rest := by
  cases ts
  · simp [tsSeg]
  · cases c
    · rw [show tsSeg false true now = tsBytes now from by simp [tsSeg]]
      exact stripGo_false_append (noEsc_tsBytes now) rest
    · rw [show tsSeg true true now ++ rest =
        ansi [48, 59, 51, 52] ++ (tsBytes now ++ (colorOff ++ rest)) from by
          simp [tsSeg, colorBlue, List.append_assoc]]
      rw [strip_wrap (by decide) (noEsc_tsBytes now) rest]
      simp [tsSeg]

theorem strip_locSeg (c : Bool) (pfx : Prefix) (d : Nat) {stack : List Frame}
    (hs : stackClean stack) (rest : List Nat) :
    stripGo false (locSeg c pfx d stack ++ rest) =
      locSeg false pfx d stack ++ stripGo false rest := by
  cases hf : pfx.File
  · simp [locSeg, hf]
  · cases c
    · rw [show locSeg false pfx d stack = locBytes (getOccurrence d stack 0).1 from by
        simp [locSeg, hf]]
      exact stripGo_false_append (noEsc_locBytes (getOccurrence_clean hs d 0)) rest
    · rw [show locSeg true pfx d stack ++ rest =
        ansi [48, 59, 51, 51] ++ (locBytes (getOccurrence d stack 0).1 ++ (colorOff ++ rest))
        from by simp [locSeg, hf, colorOrange, List.append_assoc]]
      rw [strip_wrap (by decide) (noEsc_locBytes (getOccurrence_clean hs d 0)) rest]
      simp [locSeg, hf]

theorem strip_stackLine_true {fr : Frame} (h : frameClean fr) (rest : List Nat) :
    stripGo false (stackLine true fr ++ rest) =
      stackLine false fr ++ stripGo false rest := by
  rw [show stackLine true fr ++ rest =
    ansi [49, 59, 51, 48] ++ ([9] ++ (strBytes fr.fn ++ ([58] ++ (strBytes fr.file ++
      ([58] ++ (digitsBytes fr.line 0 ++ ([10] ++ (colorOff ++ rest)))))))) from by
        simp [stackLine, colorGray, List.append_assoc]]
  rw [strip_ansi_seq (by decide)]
  rw [stripGo_false_append (show (27 : Nat) ∉ [9] by decide)]
  rw [stripGo_false_append h.1]
  rw [stripGo_false_append (show (27 : Nat) ∉ [58] by decide)]
  rw [stripGo_false_append h.2]
  rw [stripGo_false_append (show (27 : Nat) ∉ [58] by decide)]
  rw [stripGo_false_append (noEsc_digitsBytes fr.line 0)]
  rw [stripGo_false_append (show (27 : Nat) ∉ [10] by decide)]
  rw [show colorOff = ansi [48] from rfl, strip_ansi_seq (by decide)]
  simp [stackLine, List.append_assoc]

theorem strip_stackLines {d : Nat} {s : List Frame} (hs : stackClean s) :
    ∀ (c : Bool) (fuel i : Nat) (rest : List Nat),
      stripGo false ((stackLines c d s i fuel).flatten ++ rest) =
        (stackLines false d s i fuel).flatten ++ stripGo false rest := by
  intro c fuel
  induction fuel with
  | zero => intro i rest; simp [stackLines]
  | succ fuel ih =>
    intro i rest
    cases hok : (getOccurrence d s i).2
    · simp [stackLines, hok]
    · rw [show stackLines c d s i (fuel + 1) =
        stackLine c (getOccurrence d s i).1 :: stackLines c d s (i + 1) fuel
        from by simp [stackLines, hok]]
      rw [show stackLines false d s i (fuel + 1) =
        stackLine false (getOccurrence d s i).1 :: stackLines false d s (i + 1) fuel
        from by simp [stackLines, hok]]
      rw [List.flatten_cons, List.flatten_cons, List.append_assoc, List.append_assoc]
      cases c
      · rw [stripGo_false_append (stackLine_false_noEsc (getOccurrence_clean hs d i))]
        rw [ih (i + 1) rest]
      · rw [strip_stackLine_true (getOccurrence_clean hs d i)]
        rw [ih (i + 1) rest]

theorem strip_stackSeg (c : Bool) (pfx : Prefix) (d : Nat) {stack : List Frame}
    (hs : stackClean stack) (rest : List Nat) :
    stripGo false (stackSeg c pfx d stack ++ rest) =
      stackSeg false pfx d stack ++ stripGo false rest := by
  cases hcs : pfx.Callstack
  · simp [stackSeg, hcs]
  · rw [show stackSeg c pfx d stack = (stackLines c d stack 0 50).flatten from by
      simp [stackSeg, hcs]]
    rw [show stackSeg false pfx d stack = (stackLines false d stack 0 50).flatten from by
      simp [stackSeg, hcs]]
    exact strip_stackLines hs c 50 0 rest

theorem strip_record {pfx : Prefix} (hp : pfx ∈ sixPrefixes) {data : List Nat}
    (hd : 27 ∉ data) {stack : List Frame} (hs : stackClean stack)
    (c ts : Bool) (d : Nat) (now : DateTime) :
    stripAnsi (recordBytes c ts d pfx data now stack) =
      recordBytes false ts d pfx data now stack := by
  unfold stripAnsi recordBytes
  rw [strip_prefixSeg hp, strip_tsSeg, strip_locSeg c pfx d hs,
    stripGo_false_append hd, stripGo_false_append (noEsc_nlSeg data)]
  conv_lhs =>
    rw [show stackSeg c pfx d stack = stackSeg c pfx d stack ++ ([] : List Nat) from by
      simp]
  rw [strip_stackSeg c pfx d hs]
  simp [stripGo_nil, prefixSeg]

theorem record_false_noEsc {pfx : Prefix} (hp : 27 ∉ pfx.Plain) {data : List Nat}
    (hd : 27 ∉ data) {stack : List Frame} (hs : stackClean stack)
    (ts : Bool) (d : Nat) (now : DateTime) :
    27 ∉ recordBytes false ts d pfx data now stack := by
  unfold recordBytes
  refine noEsc_append ?_ (noEsc_append ?_ (noEsc_append ?_ (noEsc_append hd
    (noEsc_append (noEsc_nlSeg data) ?_))))
  · simpa [prefixSeg] using hp
  · cases ts
    · simp [tsSeg]
    · rw [show tsSeg false true now = tsBytes now from by simp [tsSeg]]
      exact noEsc_tsBytes now
  · cases hf : pfx.File
    · simp [locSeg, hf]
    · rw [show locSeg false pfx d stack = locBytes (getOccurrence d stack 0).1 from by
        simp [locSeg, hf]]
      exact noEsc_locBytes (getOccurrence_clean hs d 0)
  · cases hcs : pfx.Callstack
    · simp [stackSeg, hcs]
    · rw [show stackSeg false pfx d stack = (stackLines false d stack 0 50).flatten
        from by simp [stackSeg, hcs]]
      exact noEsc_stackLines_false hs 50 0

/-! Characterisation of the dual-destination Output and the call-stack bound. -/

theorem Output_file_eq (l : Logger) (pfx : Prefix) (data : List Nat)
    (clock : Nat → DateTime) (tick : Nat) (stackF stackP : List Frame)
    (failing : Dest → Bool) (fd : Dest) (hf : l.logFile = some fd)
    (hq : l.quiet = false) (hfail : failing fd = false) :
    l.Output pfx data clock tick stackF stackP failing =
      ⟨{ l with buf :=
          ⟨recordBytes l.color l.timestamp l.depth pfx data (clock (tick + 1)) stackP⟩ },
        tick + 1 + 1,
        [(fd, recordBytes false l.timestamp l.depth pfx data (clock tick) stackF),
         (l.out, recordBytes l.color l.timestamp l.depth pfx data (clock (tick + 1)) stackP)],
        if failing l.out then some l.out else none⟩ := by
  have h1 := output_eq { l with color := false, out := fd } pfx data clock tick
    stackF failing (by simpa using hq)
  have h2 := output_eq l pfx data clock (tick + 1) stackP failing hq
  simp only [hf] at h1
  unfold Logger.Output
  simp only [hf]
  rw [h1]
  simp only [hfail, Bool.false_eq_true, if_false]
  rw [h2]
  simp [hf]

theorem getOccurrence_ok_iff (d : Nat) (s : List Frame) (i : Nat) :
    (getOccurrence d s i).2 = true ↔ d + 2 + i < s.length := by
  unfold getOccurrence
  cases hg : s.get? (d + 2 + i) with
  | none =>
    simp only [hg]
    have hlen := List.get?_eq_none.mp hg
    simp
    omega
  | some fr =>
    simp only [hg]
    obtain ⟨hlt, _⟩ := List.get?_eq_some.mp hg
    simp [hlt]

theorem stackLines_length (c : Bool) (d : Nat) (s : List Frame) :
    ∀ (fuel i : Nat),
      (stackLines c d s i fuel).length = min fuel (s.length - (d + 2) - i) := by
  intro fuel
  induction fuel with
  | zero => intro i; simp [stackLines]
  | succ fuel ih =>
    intro i
    by_cases hok : d + 2 + i < s.length
    · have h2 : (getOccurrence d s i).2 = true := (getOccurrence_ok_iff d s i).mpr hok
      rw [show stackLines c d s i (fuel + 1) =
        stackLine c (getOccurrence d s i).1 :: stackLines c d s (i + 1) fuel
        from by simp [stackLines, h2]]
      simp only [List.length_cons, ih (i + 1)]
      omega
    · have h2 : (getOccurrence d s i).2 = false := by
        cases hgg : (getOccurrence d s i).2
        · rfl
        · exact absurd ((getOccurrence_ok_iff d s i).mp hgg) hok
      rw [show stackLines c d s i (fuel + 1) = [] from by simp [stackLines, h2]]
      simp only [List.length_nil]
      omega

theorem append_nlSeg (data : List Nat) :
    data ++ nlSeg data = normalizeNewline data := by
  unfold nlSeg normalizeNewline
  by_cases h10 : data.getLast? = some 10
  · have hne : data ≠ [] := by
      intro h
      subst h
      simp at h10
    rw [if_neg (by push_neg; exact ⟨hne, h10⟩), if_pos h10]
    simp
  · rw [if_pos (Or.inr h10), if_neg h10]

theorem getOccurrence_drop_congr {d : Nat} {sF sP : List Frame}
    (h : sF.drop (d + 2) = sP.drop (d + 2)) (i : Nat) :
    getOccurrence d sF i = getOccurrence d sP i := by
  unfold getOccurrence
  have hg : sF.get? (d + 2 + i) = sP.get? (d + 2 + i) := by
    have h1 : (sF.drop (d + 2)).get? i = (sP.drop (d + 2)).get? i := by rw [h]
    rwa [List.get?_drop, List.get?_drop] at h1
  rw [hg]

theorem stackLines_congr {d : Nat} {sF sP : List Frame}
    (h : ∀ i, getOccurrence d sF i = getOccurrence d sP i) (c : Bool) :
    ∀ fuel i : Nat, stackLines c d sF i fuel = stackLines c d sP i fuel := by
  intro fuel
  induction fuel with
  | zero => intro i; rfl
  | succ fuel ih =>
    intro i
    rw [show stackLines c d sF i (fuel + 1) =
      (if (getOccurrence d sF i).2 then
        stackLine c (getOccurrence d sF i).1 :: stackLines c d sF (i + 1) fuel
      else []) from rfl]
    rw [show stackLines c d sP i (fuel + 1) =
      (if (getOccurrence d sP i).2 then
        stackLine c (getOccurrence d sP i).1 :: stackLines c d sP (i + 1) fuel
      else []) from rfl]
    rw [h i, ih (i + 1)]

theorem recordBytes_frames_congr {d : Nat} {sF sP : List Frame}
    (h : ∀ i, getOccurrence d sF i = getOccurrence d sP i)
    (c ts : Bool) (pfx : Prefix) (data : List Nat) (now : DateTime) :
    recordBytes c ts d pfx data now sF = recordBytes c ts d pfx data now sP := by
  unfold recordBytes locSeg stackSeg
  rw [h 0, stackLines_congr h c 50 0]

/-- C6: while quiet mode is enabled every emission through Output writes
nothing to any destination (primary or file) and returns no error, for every
prefix and message; disabling quiet again is exactly the quiet := false
state, and a non-quiet pass writes its record normally. -/
theorem c6_quiet_suppression (l : Logger) (pfx : Prefix) (data : List Nat)
    (clock : Nat → DateTime) (tick : Nat) (stackF stackP stack : List Frame)
    (failing : Dest → Bool) :
    Logger.Output (Logger.Quiet l) pfx data clock tick stackF stackP failing =
      ⟨Logger.Quiet l, tick, [], none⟩
    ∧ (Logger.Quiet l).NoQuiet = Logger.NoQuiet l
    ∧ (Logger.output (Logger.NoQuiet l) pfx data clock tick stack failing).writes =
      [(l.out, recordBytes l.color l.timestamp l.depth pfx data (clock tick) stack)] := by
  refine ⟨?_, rfl, ?_⟩
  · cases hl : l.logFile with
    | none => simp [Logger.Output, Logger.output, Logger.Quiet, hl]
    | some fd => simp [Logger.Output, Logger.output, Logger.Quiet, hl]
  · rw [output_eq (Logger.NoQuiet l) pfx data clock tick stack failing rfl]
    simp [Logger.NoQuiet]

/-- C7: with debug disabled, Debug, Debugf, Trace and Tracef are complete
no-ops — unchanged logger, no clock sample (`time.Now` tick unchanged), no
write to any destination and no error, whatever the quiet flag, the ambient
stack or the clock; with debug enabled, Debug and Trace go through the same
Output pipeline as the other severities with their own prefixes. -/
theorem c7_debug_gating (l : Logger) (args : List (List Nat))
    (formatted : List Nat) (clock : Nat → DateTime) (tick : Nat)
    (stackF stackP : List Frame) (failing : Dest → Bool) :
    Logger.Debug { l with debug := false } args clock tick stackF stackP failing =
      ⟨{ l with debug := false }, tick, [], none⟩
    ∧ Logger.Debugf { l with debug := false } formatted clock tick stackF stackP failing =
      ⟨{ l with debug := false }, tick, [], none⟩
    ∧ Logger.Trace { l with debug := false } args clock tick stackF stackP failing =
      ⟨{ l with debug := false }, tick, [], none⟩
    ∧ Logger.Tracef { l with debug := false } formatted clock tick stackF stackP failing =
      ⟨{ l with debug := false }, tick, [], none⟩
    ∧ Logger.Debug { l with debug := true } args clock tick stackF stackP failing =
      Logger.Output { l with debug := true } DebugPrefix (sprintln args)
        clock tick stackF stackP failing
    ∧ Logger.Trace { l with debug := true } args clock tick stackF stackP failing =
      Logger.Output { l with debug := true } TracePrefix (sprintln args)
        clock tick stackF stackP failing := by
  refine ⟨?_, ?_, ?_, ?_, ?_, ?_⟩ <;>
    simp [Logger.Debug, Logger.Debugf, Logger.Trace, Logger.Tracef, Logger.IsDebug]

/-- C8: the TRACE call-stack dump is a bounded, terminating loop: the
call-stack segment of a TRACE record is the flattening of the frame lines
produced with fuel 50, the number of those lines is exactly the minimum of
50 and the number of available stack frames (so the loop stops early when
the stack is exhausted), and it never exceeds 50. -/
theorem c8_trace_callstack_bounded (c : Bool) (d : Nat) (stack : List Frame) :
    stackSeg c TracePrefix d stack = (stackLines c d stack 0 50).flatten
    ∧ (stackLines c d stack 0 50).length = min 50 (stack.length - (d + 2))
    ∧ (stackLines c d stack 0 50).length ≤ 50 := by
  refine ⟨by simp [stackSeg, TracePrefix], ?_, ?_⟩
  · have h := stackLines_length c d stack 50 0
    simpa using h
  · rw [stackLines_length c d stack 50 0]
    omega

/-- C9: when opening the log file fails, WithLogFile reports the failure via
an ERROR-severity emission on the primary destination (one write of an
ErrorPrefix record to `l.out`), returns the same logger — all configuration
fields unchanged and still no file destination attached — and surfaces no
error to its caller; on success it only attaches the file destination. -/
theorem c9_logfile_open_failure (l : Logger) (path errMsg : List Nat)
    (clock : Nat → DateTime) (tick : Nat) (stackF stackP : List Frame)
    (failing : Dest → Bool) :
    Logger.WithLogFile { l with logFile := none, quiet := false } true path
        errMsg clock tick stackF stackP failing =
      ⟨{ l with logFile := some Dest.file, quiet := false }, tick, [], none⟩
    ∧ (Logger.WithLogFile { l with logFile := none, quiet := false } false path
        errMsg clock tick stackF stackP failing).writes =
      [(l.out, recordBytes l.color l.timestamp l.depth ErrorPrefix
        (sprintln [ strBytes "could not open log file", path, errMsg])
        (clock tick) stackP)]
    ∧ ((Logger.WithLogFile { l with logFile := none, quiet := false } false path
        errMsg clock tick stackF stackP failing).logger).logFile = none
    ∧ ((Logger.WithLogFile { l with logFile := none, quiet := false } false path
        errMsg clock tick stackF stackP failing).logger).out = l.out
    ∧ ((Logger.WithLogFile { l with logFile := none, quiet := false } false path
        errMsg clock tick stackF stackP failing).logger).color = l.color
    ∧ ((Logger.WithLogFile { l with logFile := none, quiet := false } false path
        errMsg clock tick stackF stackP failing).logger).debug = l.debug
    ∧ ((Logger.WithLogFile { l with logFile := none, quiet := false } false path
        errMsg clock tick stackF stackP failing).logger).timestamp = l.timestamp
    ∧ ((Logger.WithLogFile { l with logFile := none, quiet := false } false path
        errMsg clock tick stackF stackP failing).logger).quiet = false
    ∧ ((Logger.WithLogFile { l with logFile := none, quiet := false } false path
        errMsg clock tick stackF stackP failing).logger).depth = l.depth
    ∧ (Logger.WithLogFile { l with logFile := none, quiet := false } false path
        errMsg clock tick stackF stackP failing).err = none := by
  have hout := output_eq { l with logFile := none, quiet := false } ErrorPrefix
    (sprintln [ strBytes "could not open log file", path, errMsg])
    clock tick stackP failing rfl
  have hE : Logger.WithLogFile { l with logFile := none, quiet := false } false
      path errMsg clock tick stackF stackP failing =
      ⟨{ l with logFile := none, quiet := false, buf :=
          ⟨recordBytes l.color l.timestamp l.depth ErrorPrefix
            (sprintln [ strBytes "could not open log file", path, errMsg])
            (clock tick) stackP⟩ },
        tick + 1,
        [(l.out, recordBytes l.color l.timestamp l.depth ErrorPrefix
          (sprintln [ strBytes "could not open log file", path, errMsg])
          (clock tick) stackP)],
        none⟩ := by
    simp only [Logger.WithLogFile, Bool.false_eq_true, if_false, Logger.Error,
      Logger.Output]
    rw [hout]
  refine ⟨rfl, ?_, ?_, ?_, ?_, ?_, ?_, ?_, ?_, ?_⟩ <;> rw [hE]

/-- C4: Info on a logger with timestamp disabled, color disabled, no file
destination (and the construction-default quiet off) writes exactly the
bytes of the line with the 8-character INFO prefix and one trailing newline;
and in every record the message segment is the message with exactly one
newline appended iff it does not already end in one. -/
theorem c4_info_plain_and_newline (l : Logger) (clock : Nat → DateTime)
    (tick : Nat) (stackF stackP : List Frame) (failing : Dest → Bool)
    (c ts : Bool) (d : Nat) (pfx : Prefix) (data : List Nat) (now : DateTime)
    (stack2 : List Frame) :
    (Logger.Info
        { l with timestamp := false, color := false, logFile := none, quiet := false }
        [ strBytes "hello" ] clock tick stackF stackP failing).writes =
      [(l.out, strBytes "[INFO]  hello\n")]
    ∧ recordBytes c ts d pfx data now stack2 =
      prefixSeg c pfx ++ (tsSeg c ts now ++ (locSeg c pfx d stack2 ++
        (normalizeNewline data ++ stackSeg c pfx d stack2))) := by
  constructor
  · have hout := output_eq
      { l with timestamp := false, color := false, logFile := none, quiet := false }
      InfoPrefix (sprintln [ strBytes "hello" ]) clock tick stackP failing rfl
    have hrec : recordBytes false false l.depth InfoPrefix
        (sprintln [ strBytes "hello" ]) (clock tick) stackP =
        strBytes "[INFO]  hello\n" := by
      simp only [recordBytes, prefixSeg, tsSeg, locSeg, stackSeg, nlSeg,
        InfoPrefix, Bool.false_eq_true, if_false, ite_false, List.nil_append,
        List.append_nil]
      decide
    simp only [Logger.Info, Logger.Output]
    rw [hout]
    simp [hrec]
  · rw [← append_nlSeg data]
    simp [recordBytes, List.append_assoc]

/-- C3 counterexample: with a file destination attached, quiet off and the
debug gates passed, an emission whose file-pass write returns an error makes
its single write to the file and then returns early — zero write calls reach
the primary destination, refuting "exactly one write call is made to the
primary destination" for every such emission. -/
theorem c3_counterexample :
    (Logger.Output
      ⟨0, false, Dest.primary, false, false, false, some Dest.file, ⟨[]⟩⟩
      InfoPrefix (strBytes "x") (fun _ => ⟨2024, 1, 1, 0, 0, 0⟩) 0 [] []
      (fun d => match d with | Dest.file => true | Dest.primary => false)).writes =
      [(Dest.file, strBytes "[INFO]  x\n")]
    ∧ ((Logger.Output
      ⟨0, false, Dest.primary, false, false, false, some Dest.file, ⟨[]⟩⟩
      InfoPrefix (strBytes "x") (fun _ => ⟨2024, 1, 1, 0, 0, 0⟩) 0 [] []
      (fun d => match d with | Dest.file => true | Dest.primary => false)).writes.filter
        (fun e => decide (e.1 = Dest.primary))).length = 0 := by decide

/-- C3 (amended): with a file destination attached, quiet off and the debug
gates passed, an emission whose message and file-pass frames contain no ESC
byte makes exactly one write to the file (first) and — provided that file
write returns no error — exactly one write to the primary destination; the
bytes written to the file are the plainly rendered record of the file pass
and contain no ANSI escape byte, regardless of the primary color setting.
Each pass resolves frames against its own runtime stack (`stackF`, `stackP`);
no relation between them is needed for the write counts. -/
theorem c3_amended_dual_write (l : Logger) (pfx : Prefix) (data : List Nat)
    (clock : Nat → DateTime) (tick : Nat) (stackF stackP : List Frame)
    (failing : Dest → Bool) (fd : Dest) (hf : l.logFile = some fd)
    (hq : l.quiet = false) (hfail : failing fd = false)
    (hp : pfx ∈ sixPrefixes) (hd : 27 ∉ data) (hsF : stackClean stackF) :
    (l.Output pfx data clock tick stackF stackP failing).writes =
      [(fd, recordBytes false l.timestamp l.depth pfx data (clock tick) stackF),
       (l.out, recordBytes l.color l.timestamp l.depth pfx data
         (clock (tick + 1)) stackP)]
    ∧ 27 ∉ recordBytes false l.timestamp l.depth pfx data (clock tick) stackF := by
  refine ⟨?_, record_false_noEsc (sixPrefixes_plain_noEsc hp) hd hsF
    l.timestamp l.depth (clock tick)⟩
  rw [Output_file_eq l pfx data clock tick stackF stackP failing fd hf hq hfail]

/-- Witness for the amended C3 at a concrete colored logger whose two passes
see the runtime stacks the program produces: identical except that the skip-2
frame is the Output call site of each pass (log.go:201 vs log.go:205). -/
theorem c3_witness :
    (⟨0, true, Dest.primary, false, true, false, some Dest.file, ⟨[]⟩⟩ :
        Logger).logFile = some Dest.file
    ∧ (⟨0, true, Dest.primary, false, true, false, some Dest.file, ⟨[]⟩⟩ :
        Logger).quiet = false
    ∧ (fun _ : Dest => false) Dest.file = false
    ∧ ErrorPrefix ∈ sixPrefixes
    ∧ 27 ∉ strBytes "boom"
    ∧ stackClean [⟨"getOccurrence", "log.go", 307⟩, ⟨"output", "log.go", 249⟩,
        ⟨"Output", "log.go", 201⟩, ⟨"Error", "log.go", 333⟩,
        ⟨"main.main", "main.go", 12⟩]
    ∧ ((Logger.Output
        ⟨0, true, Dest.primary, false, true, false, some Dest.file, ⟨[]⟩⟩
        ErrorPrefix (strBytes "boom") (fun _ => ⟨2024, 12, 31, 23, 59, 58⟩) 0
        [⟨"getOccurrence", "log.go", 307⟩, ⟨"output", "log.go", 249⟩,
         ⟨"Output", "log.go", 201⟩, ⟨"Error", "log.go", 333⟩,
         ⟨"main.main", "main.go", 12⟩]
        [⟨"getOccurrence", "log.go", 307⟩, ⟨"output", "log.go", 249⟩,
         ⟨"Output", "log.go", 205⟩, ⟨"Error", "log.go", 333⟩,
         ⟨"main.main", "main.go", 12⟩]
        (fun _ => false)).writes =
      [(Dest.file, recordBytes false true 0 ErrorPrefix (strBytes "boom")
          ⟨2024, 12, 31, 23, 59, 58⟩
          [⟨"getOccurrence", "log.go", 307⟩, ⟨"output", "log.go", 249⟩,
           ⟨"Output", "log.go", 201⟩, ⟨"Error", "log.go", 333⟩,
           ⟨"main.main", "main.go", 12⟩]),
       (Dest.primary, recordBytes true true 0 ErrorPrefix (strBytes "boom")
          ⟨2024, 12, 31, 23, 59, 58⟩
          [⟨"getOccurrence", "log.go", 307⟩, ⟨"output", "log.go", 249⟩,
           ⟨"Output", "log.go", 205⟩, ⟨"Error", "log.go", 333⟩,
           ⟨"main.main", "main.go", 12⟩])]
      ∧ 27 ∉ recordBytes false true 0 ErrorPrefix (strBytes "boom")
          ⟨2024, 12, 31, 23, 59, 58⟩
          [⟨"getOccurrence", "log.go", 307⟩, ⟨"output", "log.go", 249⟩,
           ⟨"Output", "log.go", 201⟩, ⟨"Error", "log.go", 333⟩,
           ⟨"main.main", "main.go", 12⟩]) :=
  ⟨rfl, rfl, rfl, by simp [sixPrefixes], by decide, by decide,
    c3_amended_dual_write
      ⟨0, true, Dest.primary, false, true, false, some Dest.file, ⟨[]⟩⟩
      ErrorPrefix (strBytes "boom") (fun _ => ⟨2024, 12, 31, 23, 59, 58⟩) 0
      [⟨"getOccurrence", "log.go", 307⟩, ⟨"output", "log.go", 249⟩,
       ⟨"Output", "log.go", 201⟩, ⟨"Error", "log.go", 333⟩,
       ⟨"main.main", "main.go", 12⟩]
      [⟨"getOccurrence", "log.go", 307⟩, ⟨"output", "log.go", 249⟩,
       ⟨"Output", "log.go", 205⟩, ⟨"Error", "log.go", 333⟩,
       ⟨"main.main", "main.go", 12⟩]
      (fun _ => false) Dest.file rfl rfl rfl (by simp [sixPrefixes])
      (by decide) (by decide)⟩

/-- C2 counterexample: the two passes of one logical event do not share
their inputs.  First, `output` samples `time.Now()` itself (log.go:212) and
`Output` invokes `output` once per destination, so the passes capture two
separate wall-clock instants: with timestamps enabled and a clock advancing
one second between the samples, the file bytes differ from the stripped
primary bytes.  Second, the passes do not resolve the same caller frame: at
depth 0, `runtime.Caller(depth + 2)` (log.go:307) lands on the Output frame,
which is the call site log.go:201 during the file pass but log.go:205 during
the primary pass, so even with identical clock samples an ERROR record's
caller location differs between the two passes. -/
theorem c2_counterexample :
    (Logger.Output
      ⟨0, false, Dest.primary, false, true, false, some Dest.file, ⟨[]⟩⟩
      InfoPrefix (strBytes "x")
      (fun t => if t = 0 then ⟨2024, 1, 1, 0, 0, 1⟩ else ⟨2024, 1, 1, 0, 0, 2⟩)
      0 [] [] (fun _ => false)).writes.length = 2
    ∧ ((Logger.Output
      ⟨0, false, Dest.primary, false, true, false, some Dest.file, ⟨[]⟩⟩
      InfoPrefix (strBytes "x")
      (fun t => if t = 0 then ⟨2024, 1, 1, 0, 0, 1⟩ else ⟨2024, 1, 1, 0, 0, 2⟩)
      0 [] [] (fun _ => false)).writes.map Prod.fst) = [Dest.file, Dest.primary]
    ∧ ((Logger.Output
      ⟨0, false, Dest.primary, false, true, false, some Dest.file, ⟨[]⟩⟩
      InfoPrefix (strBytes "x")
      (fun t => if t = 0 then ⟨2024, 1, 1, 0, 0, 1⟩ else ⟨2024, 1, 1, 0, 0, 2⟩)
      0 [] [] (fun _ => false)).writes.map Prod.snd).getD 0 [] ≠
      stripAnsi (((Logger.Output
      ⟨0, false, Dest.primary, false, true, false, some Dest.file, ⟨[]⟩⟩
      InfoPrefix (strBytes "x")
      (fun t => if t = 0 then ⟨2024, 1, 1, 0, 0, 1⟩ else ⟨2024, 1, 1, 0, 0, 2⟩)
      0 [] [] (fun _ => false)).writes.map Prod.snd).getD 1 [])
    ∧ ((Logger.Output
      ⟨0, false, Dest.primary, false, false, false, some Dest.file, ⟨[]⟩⟩
      ErrorPrefix (strBytes "x") (fun _ => ⟨2024, 1, 1, 0, 0, 1⟩) 0
      [⟨"getOccurrence", "log.go", 307⟩, ⟨"output", "log.go", 249⟩,
       ⟨"Output", "log.go", 201⟩]
      [⟨"getOccurrence", "log.go", 307⟩, ⟨"output", "log.go", 249⟩,
       ⟨"Output", "log.go", 205⟩]
      (fun _ => false)).writes.map Prod.snd).getD 0 [] ≠
      stripAnsi (((Logger.Output
      ⟨0, false, Dest.primary, false, false, false, some Dest.file, ⟨[]⟩⟩
      ErrorPrefix (strBytes "x") (fun _ => ⟨2024, 1, 1, 0, 0, 1⟩) 0
      [⟨"getOccurrence", "log.go", 307⟩, ⟨"output", "log.go", 249⟩,
       ⟨"Output", "log.go", 201⟩]
      [⟨"getOccurrence", "log.go", 307⟩, ⟨"output", "log.go", 249⟩,
       ⟨"Output", "log.go", 205⟩]
      (fun _ => false)).writes.map Prod.snd).getD 1 []) := by decide

/-- C2 (amended): each pass of a dual-destination emission captures its own
wall-clock instant — the file pass at the current tick, the primary pass at
the next — and resolves caller frames against its own runtime stack, and the
two stacks differ at skip `depth + 2` when depth is 0, because that frame is
Output's own call site (log.go:201 in the file pass, log.go:205 in the
primary pass).  Whenever the two captured instants agree and the two stacks
coincide from skip `depth + 2` on (as the program guarantees for depth ≥ 1,
where resolution happens above the differing Output frame; a location-free,
stack-free prefix needs no frames at all), and the message and primary-pass
frames carry no ESC byte for one of the six severity prefixes, the bytes
written to the primary destination stripped of ANSI escape sequences are
exactly the bytes written to the file. -/
theorem c2_amended_dual_content (l : Logger) (pfx : Prefix) (data : List Nat)
    (clock : Nat → DateTime) (tick : Nat) (stackF stackP : List Frame)
    (failing : Dest → Bool) (fd : Dest) (hf : l.logFile = some fd)
    (hq : l.quiet = false) (hfail : failing fd = false)
    (hp : pfx ∈ sixPrefixes) (hd : 27 ∉ data) (hsP : stackClean stackP)
    (hclock : clock tick = clock (tick + 1))
    (hstacks : stackF.drop (l.depth + 2) = stackP.drop (l.depth + 2)) :
    (l.Output pfx data clock tick stackF stackP failing).writes =
      [(fd, recordBytes false l.timestamp l.depth pfx data (clock tick) stackF),
       (l.out, recordBytes l.color l.timestamp l.depth pfx data
         (clock (tick + 1)) stackP)]
    ∧ stripAnsi (recordBytes l.color l.timestamp l.depth pfx data
        (clock (tick + 1)) stackP) =
      recordBytes false l.timestamp l.depth pfx data (clock tick) stackF := by
  have hframes := getOccurrence_drop_congr hstacks
  constructor
  · rw [Output_file_eq l pfx data clock tick stackF stackP failing fd hf hq hfail]
  · rw [← hclock]
    rw [recordBytes_frames_congr hframes false l.timestamp pfx data (clock tick)]
    cases hc : l.color
    · exact strip_noEsc (record_false_noEsc (sixPrefixes_plain_noEsc hp) hd hsP
        l.timestamp l.depth (clock tick))
    · exact strip_record hp hd hsP true l.timestamp l.depth (clock tick)

/-- Witness for the amended C2: a colored ERROR emission at depth 1 with a
constant clock and the two runtime stacks the program produces — identical
except at the skip-2 Output frame (log.go:201 vs log.go:205), so they agree
from skip depth + 2 = 3 on. -/
theorem c2_witness :
    (⟨1, true, Dest.primary, false, true, false, some Dest.file, ⟨[]⟩⟩ :
        Logger).logFile = some Dest.file
    ∧ (⟨1, true, Dest.primary, false, true, false, some Dest.file, ⟨[]⟩⟩ :
        Logger).quiet = false
    ∧ (fun _ : Dest => false) Dest.file = false
    ∧ ErrorPrefix ∈ sixPrefixes
    ∧ 27 ∉ strBytes "t"
    ∧ stackClean [⟨"getOccurrence", "log.go", 307⟩, ⟨"output", "log.go", 249⟩,
        ⟨"Output", "log.go", 205⟩, ⟨"Error", "log.go", 333⟩,
        ⟨"wrapper", "app/wrap.go", 5⟩, ⟨"main.main", "app/main.go", 9⟩]
    ∧ (fun _ : Nat => (⟨2025, 2, 3, 4, 5, 6⟩ : DateTime)) 0 =
        (fun _ : Nat => (⟨2025, 2, 3, 4, 5, 6⟩ : DateTime)) (0 + 1)
    ∧ List.drop (1 + 2)
        ([⟨"getOccurrence", "log.go", 307⟩, ⟨"output", "log.go", 249⟩,
          ⟨"Output", "log.go", 201⟩, ⟨"Error", "log.go", 333⟩,
          ⟨"wrapper", "app/wrap.go", 5⟩, ⟨"main.main", "app/main.go", 9⟩] :
          List Frame) =
      List.drop (1 + 2)
        ([⟨"getOccurrence", "log.go", 307⟩, ⟨"output", "log.go", 249⟩,
          ⟨"Output", "log.go", 205⟩, ⟨"Error", "log.go", 333⟩,
          ⟨"wrapper", "app/wrap.go", 5⟩, ⟨"main.main", "app/main.go", 9⟩] :
          List Frame)
    ∧ ((Logger.Output
        ⟨1, true, Dest.primary, false, true, false, some Dest.file, ⟨[]⟩⟩
        ErrorPrefix (strBytes "t") (fun _ => ⟨2025, 2, 3, 4, 5, 6⟩) 0
        [⟨"getOccurrence", "log.go", 307⟩, ⟨"output", "log.go", 249⟩,
         ⟨"Output", "log.go", 201⟩, ⟨"Error", "log.go", 333⟩,
         ⟨"wrapper", "app/wrap.go", 5⟩, ⟨"main.main", "app/main.go", 9⟩]
        [⟨"getOccurrence", "log.go", 307⟩, ⟨"output", "log.go", 249⟩,
         ⟨"Output", "log.go", 205⟩, ⟨"Error", "log.go", 333⟩,
         ⟨"wrapper", "app/wrap.go", 5⟩, ⟨"main.main", "app/main.go", 9⟩]
        (fun _ => false)).writes =
      [(Dest.file, recordBytes false true 1 ErrorPrefix (strBytes "t")
          ⟨2025, 2, 3, 4, 5, 6⟩
          [⟨"getOccurrence", "log.go", 307⟩, ⟨"output", "log.go", 249⟩,
           ⟨"Output", "log.go", 201⟩, ⟨"Error", "log.go", 333⟩,
           ⟨"wrapper", "app/wrap.go", 5⟩, ⟨"main.main", "app/main.go", 9⟩]),
       (Dest.primary, recordBytes true true 1 ErrorPrefix (strBytes "t")
          ⟨2025, 2, 3, 4, 5, 6⟩
          [⟨"getOccurrence", "log.go", 307⟩, ⟨"output", "log.go", 249⟩,
           ⟨"Output", "log.go", 205⟩, ⟨"Error", "log.go", 333⟩,
           ⟨"wrapper", "app/wrap.go", 5⟩, ⟨"main.main", "app/main.go", 9⟩])]
      ∧ stripAnsi (recordBytes true true 1 ErrorPrefix (strBytes "t")
          ⟨2025, 2, 3, 4, 5, 6⟩
          [⟨"getOccurrence", "log.go", 307⟩, ⟨"output", "log.go", 249⟩,
           ⟨"Output", "log.go", 205⟩, ⟨"Error", "log.go", 333⟩,
           ⟨"wrapper", "app/wrap.go", 5⟩, ⟨"main.main", "app/main.go", 9⟩]) =
        recordBytes false true 1 ErrorPrefix (strBytes "t")
          ⟨2025, 2, 3, 4, 5, 6⟩
          [⟨"getOccurrence", "log.go", 307⟩, ⟨"output", "log.go", 249⟩,
           ⟨"Output", "log.go", 201⟩, ⟨"Error", "log.go", 333⟩,
           ⟨"wrapper", "app/wrap.go", 5⟩, ⟨"main.main", "app/main.go", 9⟩]) :=
  ⟨rfl, rfl, rfl, by simp [sixPrefixes], by decide, by decide, rfl, rfl,
    c2_amended_dual_content
      ⟨1, true, Dest.primary, false, true, false, some Dest.file, ⟨[]⟩⟩
      ErrorPrefix (strBytes "t") (fun _ => ⟨2025, 2, 3, 4, 5, 6⟩) 0
      [⟨"getOccurrence", "log.go", 307⟩, ⟨"output", "log.go", 249⟩,
       ⟨"Output", "log.go", 201⟩, ⟨"Error", "log.go", 333⟩,
       ⟨"wrapper", "app/wrap.go", 5⟩, ⟨"main.main", "app/main.go", 9⟩]
      [⟨"getOccurrence", "log.go", 307⟩, ⟨"output", "log.go", 249⟩,
       ⟨"Output", "log.go", 205⟩, ⟨"Error", "log.go", 333⟩,
       ⟨"wrapper", "app/wrap.go", 5⟩, ⟨"main.main", "app/main.go", 9⟩]
      (fun _ => false) Dest.file rfl rfl rfl (by simp [sixPrefixes])
      (by decide) (by decide) rfl rfl⟩
